import Mathlib

/-!
Verification of the StudioBot YouTube Music radio system.

This file gives a shallow embedding of the core of the repository and proves
the behavioural properties stated in its specification:

* `src/src/youtube_music/monitor.py` — the track-change monitor loop
  (`start_monitoring`) and the natural-transition classifier
  (`was_natural_transition`);
* `src/src/youtube_music/content_queue.py` — the pre-generated content queue
  (`get_next_content`, `fill_queue`, eviction and emergency generation);
* `src/src/youtube_music/content_generator.py` — the pause/play/resume break
  protocol (`execute_immediate_content_break`).

Python floats (durations, positions, wall-clock seconds) are embedded as ℚ;
external effects (the player re-query, generation back-end results, audio
playback success) are passed in as explicit oracle arguments; Python object
identity of `ContentItem` instances is embedded as a numeric tag `id`, fresh
tags being drawn from a counter that only grows.
-/

namespace StudioBot

/-- A normalized song snapshot, as built by `normalize_song_data` in
`monitor.py` (only the fields the monitor logic reads are kept). -/
structure Song where
  id : String
  title : String
  artist : String
  duration_seconds : ℚ
  current_time_seconds : ℚ
  is_playing : Bool
deriving DecidableEq

/-- Outcome of one call to `get_current_song` as observed by its caller:
the call can raise (`err`), report that no song is playing (`nosong`), or
return a snapshot (`song`). -/
inductive QueryResult where
  | err : QueryResult
  | nosong : QueryResult
  | song : Song → QueryResult
deriving DecidableEq

/-- Embedding of `YouTubeMusicMonitor.was_natural_transition` (monitor.py,
lines 190-271).  `old_track` and `track_start_time` are the captured old
state, `requery` is the result of the re-query `get_current_song` call made
inside the classifier, `now` is the wall clock (seconds) at classification
time.  Mirrors the source branch for branch, including the fall-through to
the final `return False` when `old_duration <= 0`. -/
def was_natural_transition (old_track : Option Song) (track_start_time : Option ℚ)
    (requery : QueryResult) (now : ℚ) : Bool :=
  match old_track, track_start_time with
  | some old, some start_time =>
    let old_duration := old.duration_seconds
    match requery with
    | QueryResult.song current_song =>
        if current_song.id = old.id then
          -- still on the same track: use the fresh position
          if old_duration > 0 then
            decide (old_duration - current_song.current_time_seconds ≤ 30)
          else
            false
        else
          -- track already changed: use the last merged position of the old track
          if old_duration > 0 then
            decide (old_duration - old.current_time_seconds ≤ 30)
          else
            false
    | QueryResult.nosong =>
        -- the re-query returned no data: "fallback to old logic", the stored position
        if old_duration > 0 then
          decide (old_duration - old.current_time_seconds ≤ 30)
        else
          false
    | QueryResult.err =>
        -- an exception during the re-query block: wall-clock fallback
        decide (old_duration > 0 ∧ now - start_time ≥ old_duration * (7 / 10))
  | _, _ => false

/-- The monitor state mutated by the polling loop in `start_monitoring`:
`current_track_id`, `current_track_info` and `track_start_time`. -/
structure MonitorState where
  current_track_id : Option String
  current_track_info : Option Song
  track_start_time : Option ℚ
deriving DecidableEq

/-- Observable outcomes of one poll tick: `callback` is an invocation of the
`on_track_change` callback; `manual` is the logged manual-skip branch that
invokes no callback; `stopped` is the logged no-song branch that clears the
tracked state. -/
inductive MEvent where
  | callback : Song → MEvent
  | manual : Song → MEvent
  | stopped : MEvent
deriving DecidableEq

/-- The composite track id built at monitor.py line 147. -/
def derived_track_id (s : Song) : String :=
  s.id ++ "_" ++ s.title ++ "_" ++ s.artist

/-- One iteration of the `while self.is_running` body of `start_monitoring`
(monitor.py, lines 142-188).  `poll` is the result of the tick's
`get_current_song` call (`none` covers both "no song" and a failed call,
which that method maps to `None`); `requery` and `now` feed the classifier
invoked on a track change. -/
def monitor_step (st : MonitorState) (poll : Option Song) (requery : QueryResult)
    (now : ℚ) : MonitorState × List MEvent :=
  match poll with
  | some song =>
      if st.current_track_id ≠ some (derived_track_id song) then
        let st' : MonitorState :=
          { current_track_id := some (derived_track_id song),
            current_track_info := some song,
            track_start_time := some now }
        if was_natural_transition st.current_track_info st.track_start_time requery now then
          (st', [MEvent.callback song])
        else
          (st', [MEvent.manual song])
      else
        match st.current_track_info with
        | some info =>
            let merged : Song :=
              { info with current_time_seconds := song.current_time_seconds,
                          is_playing := song.is_playing }
            ({ st with current_track_info := some merged }, [])
        | none => (st, [])
  | none =>
      if st.current_track_id ≠ none then
        ({ current_track_id := none, current_track_info := none,
           track_start_time := st.track_start_time }, [MEvent.stopped])
      else
        (st, [])

/-- Whether an event is an invocation of the `on_track_change` callback. -/
def is_callback_event : MEvent → Bool
  | MEvent.callback _ => true
  | _ => false

/-- How many times the `on_track_change` callback fires in a list of events. -/
def callback_count (events : List MEvent) : Nat :=
  (events.filter is_callback_event).length

/-- The position the classifier compares against the 30-second threshold,
per source of position: the fresh position when the re-query still reports
the old track, and the stored last-merged position when the re-query reports
another track or returns no data.  `none` when the re-query raised (the
classifier then uses the wall clock instead of a position). -/
def obtained_position (old : Song) (requery : QueryResult) : Option ℚ :=
  match requery with
  | QueryResult.song current_song =>
      some (if current_song.id = old.id then current_song.current_time_seconds
            else old.current_time_seconds)
  | QueryResult.nosong => some old.current_time_seconds
  | QueryResult.err => none

/-- Content types served by the queue (content_queue.py line 15). -/
inductive CType where
  | ad : CType
  | conversation : CType
deriving DecidableEq

/-- A pre-generated content item (class `ContentItem`).  `id` embeds Python
object identity: every `ContentItem(...)` construction yields a fresh tag.
`created_at` is the construction time in seconds. -/
structure ContentItem where
  id : Nat
  content_type : CType
  created_at : ℚ
deriving DecidableEq

/-- Embedding of `ContentItem.is_expired` (content_queue.py lines 26-29). -/
def ContentItem.is_expired (item : ContentItem) (max_age_minutes : ℚ) (now : ℚ) : Bool :=
  decide (now - item.created_at > max_age_minutes * 60)

/-- The queue settings read in `ContentQueue.__init__` (defaults 4, 1, 1, 30). -/
structure QueueConfig where
  max_queue_size : Nat
  min_ads : Nat
  min_conversations : Nat
  max_age_minutes : ℚ

/-- The mutable state of a `ContentQueue`: the deque, the last served type,
and the counter handing out fresh `ContentItem` identity tags. -/
structure QueueState where
  queue : List ContentItem
  last_served_type : Option CType
  next_id : Nat
deriving DecidableEq

/-- The state of a freshly constructed `ContentQueue`: empty deque and no
last served type. -/
def initial_queue_state : QueueState :=
  { queue := [], last_served_type := none, next_id := 0 }

/-- Embedding of `_remove_expired_items` (content_queue.py lines 185-192). -/
def remove_expired_items (cfg : QueueConfig) (st : QueueState) (now : ℚ) : QueueState :=
  { st with queue := st.queue.filter (fun item => !item.is_expired cfg.max_age_minutes now) }

/-- Python's `max(queue, key=lambda x: x.created_at)`: the first element of
`h :: t` with the strictly greatest `created_at`. -/
def max_by_created (h : ContentItem) (t : List ContentItem) : ContentItem :=
  t.foldl (fun best x => if x.created_at > best.created_at then x else best) h

/-- The type preferred for variety: the opposite of the last served one. -/
def preferred_other : CType → CType
  | CType.ad => CType.conversation
  | CType.conversation => CType.ad

/-- Embedding of `_get_best_next_item` (content_queue.py lines 103-116):
prefer the first item of the type opposite to the last served one; fall back
to the most recently created item. -/
def get_best_next_item (queue : List ContentItem) (last_served_type : Option CType) :
    Option ContentItem :=
  match queue with
  | [] => none
  | h :: t =>
    match last_served_type with
    | some last =>
      match (h :: t).find? (fun item => decide (item.content_type = preferred_other last)) with
      | some item => some item
      | none => some (max_by_created h t)
    | none => some (max_by_created h t)

/-- Python's `list.remove`: drop the first occurrence of `item`. -/
def remove_first : List ContentItem → ContentItem → List ContentItem
  | [], _ => []
  | h :: t, item => if h = item then t else h :: remove_first t item

/-- Result of one `get_next_content` call: the returned item, the state left
behind, the generation calls made on the synchronous emergency path (with
their content type), and whether a background refill task was spawned. -/
structure GetNextResult where
  item : Option ContentItem
  state : QueueState
  emergency_gen_calls : List CType
  refill_triggered : Bool

/-- Embedding of `_generate_emergency_content` (content_queue.py lines
194-215): one synchronous `pre_generate_ad` call; on success the fresh item
is returned without ever entering the queue, on failure `none`.  `gen_ok` is
the back-end outcome. -/
def generate_emergency_content (st : QueueState) (now : ℚ) (gen_ok : Bool) : GetNextResult :=
  if gen_ok then
    { item := some { id := st.next_id, content_type := CType.ad, created_at := now },
      state := { st with next_id := st.next_id + 1 },
      emergency_gen_calls := [CType.ad],
      refill_triggered := false }
  else
    { item := none, state := st, emergency_gen_calls := [CType.ad],
      refill_triggered := false }

/-- Embedding of `get_next_content` (content_queue.py lines 81-101): evict
expired items, take the emergency path on an empty queue, otherwise serve the
best item, remove it from the queue, record its type and trigger a refill. -/
def get_next_content (cfg : QueueConfig) (st : QueueState) (now : ℚ) (gen_ok : Bool) :
    GetNextResult :=
  let st1 := remove_expired_items cfg st now
  match st1.queue with
  | [] => generate_emergency_content st1 now gen_ok
  | h :: t =>
    match get_best_next_item (h :: t) st1.last_served_type with
    | some item =>
        { item := some item,
          state := { queue := remove_first (h :: t) item,
                     last_served_type := some item.content_type,
                     next_id := st1.next_id },
          emergency_gen_calls := [],
          refill_triggered := true }
    | none =>
        { item := none, state := st1, emergency_gen_calls := [],
          refill_triggered := false }

/-- One `_generate_and_queue_ad` / `_generate_and_queue_conversation` call
(content_queue.py lines 147-183): on back-end success append a fresh item of
the given type, on failure leave the queue alone. -/
def generation_step (ty : CType) (now : ℚ) (ok : Bool) (st : QueueState) : QueueState :=
  if ok then
    { st with
      queue := st.queue ++ [{ id := st.next_id, content_type := ty, created_at := now }],
      next_id := st.next_id + 1 }
  else st

/-- One of the two generation loops of `fill_queue`: up to `needed` items of
type `ty`, stopping as soon as the queue has reached `max_queue_size`.
`gen_ok k` is the outcome of the k-th generation call of this `fill_queue`
run; the returned counter indexes the next call. -/
def fill_loop (ty : CType) (max_queue_size : Nat) (now : ℚ) (gen_ok : Nat → Bool) :
    Nat → Nat → QueueState → QueueState × Nat
  | 0, k, st => (st, k)
  | Nat.succ n, k, st =>
    if max_queue_size ≤ st.queue.length then (st, k)
    else fill_loop ty max_queue_size now gen_ok n (k + 1) (generation_step ty now (gen_ok k) st)

/-- Embedding of `fill_queue` (content_queue.py lines 118-145): evict, count
each type, then generate the per-type deficits (ads first), each loop bounded
by the remaining capacity.  Nat subtraction renders `max(0, min - count)`. -/
def fill_queue (cfg : QueueConfig) (st : QueueState) (now : ℚ) (gen_ok : Nat → Bool) :
    QueueState :=
  let st1 := remove_expired_items cfg st now
  let ad_count := (st1.queue.filter (fun item => decide (item.content_type = CType.ad))).length
  let conversation_count :=
    (st1.queue.filter (fun item => decide (item.content_type = CType.conversation))).length
  let ads_needed := cfg.min_ads - ad_count
  let conversations_needed := cfg.min_conversations - conversation_count
  let r1 := fill_loop CType.ad cfg.max_queue_size now gen_ok ads_needed 0 st1
  let r2 := fill_loop CType.conversation cfg.max_queue_size now gen_ok
    conversations_needed r1.2 r1.1
  r2.1

/-- An operation on the content queue, with its oracle data: a `get_next_content`
call (wall clock, emergency back-end outcome) or a `fill_queue` run (wall
clock, back-end outcomes of its generation calls).  This covers every
mutation of the queue in the source: the consumer path and the initial /
background / triggered refills all go through these two methods. -/
inductive QueueOp where
  | getNext : ℚ → Bool → QueueOp
  | fill : ℚ → (Nat → Bool) → QueueOp

/-- Run a sequence of queue operations, collecting every item returned by
`get_next_content` in order. -/
def run_queue (cfg : QueueConfig) : QueueState → List QueueOp → QueueState × List ContentItem
  | st, [] => (st, [])
  | st, QueueOp.getNext now gen_ok :: ops =>
      let r := get_next_content cfg st now gen_ok
      let rest := run_queue cfg r.state ops
      (rest.1, r.item.toList ++ rest.2)
  | st, QueueOp.fill now gen_ok :: ops =>
      run_queue cfg (fill_queue cfg st now gen_ok) ops

/-- The identity discipline of the queue: the tags of the queued items are
pairwise distinct and all lie below the fresh-tag counter.  This holds for a
fresh `ContentQueue` and is preserved by every operation. -/
def queue_ids_ok (st : QueueState) : Prop :=
  (st.queue.map (fun it => it.id)).Nodup ∧ ∀ it ∈ st.queue, it.id < st.next_id

/-- How one queue state can evolve into another under the queue's
operations: the fresh-tag counter only grows, and every queued item either
was already queued or carries a tag minted after the starting state. -/
def evolves (s t : QueueState) : Prop :=
  s.next_id ≤ t.next_id ∧ ∀ it ∈ t.queue, it ∈ s.queue ∨ s.next_id ≤ it.id

/-- The calls `execute_immediate_content_break` makes against the player and
the clock, in order: the volume query, the two pause calls with the 0.1s
sleep between them, the audio playback attempt, the estimated-duration wait,
the final resume, and the emergency resume of the exception handler. -/
inductive BAction where
  | volume_query : BAction
  | pause_call : BAction
  | sleep_call : ℚ → BAction
  | play_call : BAction
  | wait_call : ℚ → BAction
  | resume_call : BAction
  | emergency_resume_call : BAction
deriving DecidableEq

/-- The `ad_break` configuration read by the orchestrator: `enabled` and
`play_audio` (both default true). -/
structure BreakCfg where
  enabled : Bool
  play_audio : Bool

/-- The environment of one break: whether the item's `audio_url` starts with
`/audio/`, whether the resolved file exists, whether `play_audio_file`
succeeded, and the word count of the content text. -/
structure BreakEnv where
  url_is_audio : Bool
  file_exists : Bool
  play_success : Bool
  word_count : Nat

/-- The estimated spoken duration `max(8, (words / 150) * 60)` used whenever
audio cannot be played (content_generator.py lines 255-268). -/
def estimated_wait (word_count : Nat) : ℚ :=
  max 8 ((word_count : ℚ) / 150 * 60)

/-- The call trace of the `try` body of `execute_immediate_content_break`
(content_generator.py lines 221-279) when no exception occurs, branch for
branch: volume query, double pause, then the play / wait section selected by
the configuration and the audio resolution, then exactly one resume. -/
def break_body (cfg : BreakCfg) (env : BreakEnv) : List BAction :=
  [BAction.volume_query, BAction.pause_call, BAction.sleep_call (1 / 10),
   BAction.pause_call] ++
  (if cfg.play_audio then
     (if env.url_is_audio then
        (if env.file_exists then
           BAction.play_call ::
             (if env.play_success then []
              else [BAction.wait_call (estimated_wait env.word_count)])
         else [BAction.wait_call (estimated_wait env.word_count)])
      else [])
   else [BAction.wait_call (estimated_wait env.word_count)]) ++
  [BAction.resume_call]

/-- Embedding of `execute_immediate_content_break` (content_generator.py
lines 213-288) as its call trace.  `exception_at = some k` injects an
unhandled exception at the k-th call of the body: the remaining calls are
skipped and the `except` handler makes its single best-effort emergency
resume call.  With the break disabled the method returns before touching the
player. -/
def execute_immediate_content_break (cfg : BreakCfg) (env : BreakEnv)
    (exception_at : Option Nat) : List BAction :=
  if cfg.enabled then
    match exception_at with
    | none => break_body cfg env
    | some k => (break_body cfg env).take k ++ [BAction.emergency_resume_call]
  else []

/-- Whether an action is the protocol's resume call. -/
def is_resume_action : BAction → Bool
  | BAction.resume_call => true
  | _ => false

/-- Whether an action is the exception handler's emergency resume call. -/
def is_emergency_resume_action : BAction → Bool
  | BAction.emergency_resume_call => true
  | _ => false

/-- Number of resume calls in a break trace. -/
def resume_count (trace : List BAction) : Nat :=
  (trace.filter is_resume_action).length

/-- Number of emergency resume calls in a break trace. -/
def emergency_resume_count (trace : List BAction) : Nat :=
  (trace.filter is_emergency_resume_action).length

/-- Claim C1, as stated, is false: the `on_track_change` callback is gated
behind the natural-transition classification, so a tick whose derived track
id differs from the stored one need not fire it.  Concretely, on the very
first observed track the id differs from the stored `none`, yet
`was_natural_transition` returns false (no old track) and no callback fires. -/
theorem C1_changed_id_without_callback_cex :
    ((⟨none, none, none⟩ : MonitorState).current_track_id ≠
      some (derived_track_id (⟨"a", "t", "r", 200, 0, true⟩ : Song))) ∧
    callback_count
      (monitor_step (⟨none, none, none⟩ : MonitorState)
        (some (⟨"a", "t", "r", 200, 0, true⟩ : Song)) QueryResult.nosong 0).2 = 0 := by
  constructor
  · simp
  · simp [monitor_step, was_natural_transition, callback_count, is_callback_event]

/-- Claim C1 (amended): on every poll tick, the `on_track_change` callback
fires exactly once when the derived track id differs from the stored current
track id AND the change is classified as a natural transition, and does not
fire otherwise; on a tick reporting no song it never fires. -/
theorem C1_callback_iff_natural_change :
    (∀ (st : MonitorState) (s : Song) (requery : QueryResult) (now : ℚ),
      callback_count (monitor_step st (some s) requery now).2 =
        (if st.current_track_id ≠ some (derived_track_id s) ∧
            was_natural_transition st.current_track_info st.track_start_time requery now = true
         then 1 else 0)) ∧
    (∀ (st : MonitorState) (requery : QueryResult) (now : ℚ),
      callback_count (monitor_step st none requery now).2 = 0) := by
  constructor
  · intro st s requery now
    by_cases hch : st.current_track_id ≠ some (derived_track_id s)
    · by_cases hnat :
        was_natural_transition st.current_track_info st.track_start_time requery now = true
      · simp [monitor_step, hch, hnat, callback_count, is_callback_event]
      · simp [monitor_step, hch, hnat, callback_count, is_callback_event]
    · cases hinfo : st.current_track_info <;>
        simp [monitor_step, hch, hinfo, callback_count]
  · intro st requery now
    by_cases h : st.current_track_id ≠ none <;>
      simp [monitor_step, h, callback_count, is_callback_event]

/-- Claim C2, as stated, is false on a zero-duration old track: the stored
position 0 is obtained and `duration − position = 0 ≤ 30`, so the claim
requires a natural classification, but the code falls through to its final
`return False`. -/
theorem C2_zero_duration_cex :
    obtained_position (⟨"a", "t", "r", 0, 0, true⟩ : Song) QueryResult.nosong = some 0 ∧
    (⟨"a", "t", "r", 0, 0, true⟩ : Song).duration_seconds - 0 ≤ 30 ∧
    was_natural_transition (some (⟨"a", "t", "r", 0, 0, true⟩ : Song)) (some 0)
      QueryResult.nosong 1 = false := by
  refine ⟨by simp [obtained_position], by norm_num, ?_⟩
  simp [was_natural_transition]

/-- Claim C2 (amended): in every classification run that obtains a position
for the old track (fresh position when the re-query still reports the old
track id, stored last-merged position when it reports another track or
returns no data), provided the old track's duration is positive, the result
is natural exactly when `duration − position ≤ 30` seconds. -/
theorem C2_threshold_rule (old : Song) (start_time : ℚ) (requery : QueryResult)
    (now : ℚ) (pos : ℚ) (hpos : obtained_position old requery = some pos)
    (hdur : 0 < old.duration_seconds) :
    was_natural_transition (some old) (some start_time) requery now =
      decide (old.duration_seconds - pos ≤ 30) := by
  cases requery with
  | err => exact absurd hpos (by simp [obtained_position])
  | nosong =>
      have hp : old.current_time_seconds = pos := by
        simpa [obtained_position] using hpos
      subst hp
      simp [was_natural_transition, hdur]
  | song cur =>
      by_cases hid : cur.id = old.id
      · have hp : cur.current_time_seconds = pos := by
          simpa [obtained_position, hid] using hpos
        subst hp
        simp [was_natural_transition, hid, hdur]
      · have hp : old.current_time_seconds = pos := by
          simpa [obtained_position, hid] using hpos
        subst hp
        simp [was_natural_transition, hid, hdur]

/-- Witness for C2: the spec's two scenarios.  Duration 200s with stored
position 175s at the switch classifies as natural (remaining 25 ≤ 30);
duration 200s with stored position 100s classifies as manual. -/
theorem C2_threshold_rule_witness :
    was_natural_transition (some (⟨"a", "t", "r", 200, 175, true⟩ : Song)) (some 0)
      QueryResult.nosong 1 = true ∧
    was_natural_transition (some (⟨"a", "t", "r", 200, 100, true⟩ : Song)) (some 0)
      QueryResult.nosong 1 = false := by
  constructor
  · rw [C2_threshold_rule (⟨"a", "t", "r", 200, 175, true⟩ : Song) 0 QueryResult.nosong 1 175
        (by simp [obtained_position]) (by norm_num)]
    norm_num
  · rw [C2_threshold_rule (⟨"a", "t", "r", 200, 100, true⟩ : Song) 0 QueryResult.nosong 1 100
        (by simp [obtained_position]) (by norm_num)]
    norm_num

/-- Claim C3, as stated, is false on a zero-duration old track: the re-query
raises, the monitored duration (5s) is at least `0.70 × 0`, so the claim
requires a natural classification, but the code's fallback also requires a
positive duration and returns false. -/
theorem C3_zero_duration_cex :
    was_natural_transition (some (⟨"a", "t", "r", 0, 0, true⟩ : Song)) (some 0)
      QueryResult.err 5 = false ∧
    (5:ℚ) - 0 ≥ (⟨"a", "t", "r", 0, 0, true⟩ : Song).duration_seconds * (7 / 10) := by
  constructor
  · simp [was_natural_transition]
  · norm_num

/-- Claim C3 (amended): whenever the classification's re-query raises, the
classifier falls back to the wall-clock monitored duration `now − start`,
and, provided the old track's duration is positive, returns true exactly
when that monitored duration is at least 0.70 times the old duration. -/
theorem C3_wall_clock_rule (old : Song) (start_time now : ℚ)
    (hdur : 0 < old.duration_seconds) :
    was_natural_transition (some old) (some start_time) QueryResult.err now =
      decide (now - start_time ≥ old.duration_seconds * (7 / 10)) := by
  simp [was_natural_transition, hdur]

/-- Witness for C3: a 100s track monitored for 90s (≥ 70s) classifies as
natural on the wall-clock fallback. -/
theorem C3_wall_clock_rule_witness :
    was_natural_transition (some (⟨"a", "t", "r", 100, 0, true⟩ : Song)) (some 0)
      QueryResult.err 90 = true := by
  rw [C3_wall_clock_rule (⟨"a", "t", "r", 100, 0, true⟩ : Song) 0 90 (by norm_num)]
  norm_num

/-- Claim C8: on a poll tick reporting no song while a track was being
tracked, the monitor emits the "stopped" transition exactly once and clears
its current-track state (`current_track_id` and `current_track_info`). -/
theorem C8_stopped_transition (st : MonitorState) (requery : QueryResult) (now : ℚ)
    (h : st.current_track_id ≠ none) :
    monitor_step st none requery now =
      ({ current_track_id := none, current_track_info := none,
         track_start_time := st.track_start_time }, [MEvent.stopped]) := by
  simp [monitor_step, h]

/-- Witness for C8 at a concrete tracking state. -/
theorem C8_stopped_transition_witness :
    monitor_step
      (⟨some "x", some (⟨"x", "t", "r", 100, 50, true⟩ : Song), some 0⟩ : MonitorState)
      none QueryResult.nosong 3 =
      ({ current_track_id := none, current_track_info := none,
         track_start_time := some 0 }, [MEvent.stopped]) :=
  C8_stopped_transition
    (⟨some "x", some (⟨"x", "t", "r", 100, 50, true⟩ : Song), some 0⟩ : MonitorState)
    QueryResult.nosong 3 (by simp)

/-- A fold that at each step keeps either the accumulator or the new element
stays inside the candidates. -/
theorem foldl_choice_mem (f : ContentItem → ContentItem → ContentItem)
    (hf : ∀ a b, f a b = a ∨ f a b = b) :
    ∀ (t : List ContentItem) (h : ContentItem), t.foldl f h ∈ h :: t := by
  intro t
  induction t with
  | nil => intro h; simp
  | cons x t ih =>
      intro h
      have hx := ih (f h x)
      simp only [List.foldl_cons]
      rcases List.mem_cons.mp hx with h1 | h1
      · rcases hf h x with h2 | h2
        · exact List.mem_cons.mpr (Or.inl (h1.trans h2))
        · exact List.mem_cons.mpr (Or.inr (List.mem_cons.mpr (Or.inl (h1.trans h2))))
      · exact List.mem_cons.mpr (Or.inr (List.mem_cons.mpr (Or.inr h1)))

/-- `max_by_created h t` is one of the candidates `h :: t`. -/
theorem max_by_created_mem (t : List ContentItem) (h : ContentItem) :
    max_by_created h t ∈ h :: t := by
  have := foldl_choice_mem
    (fun best x => if x.created_at > best.created_at then x else best)
    (fun a b => by by_cases hc : b.created_at > a.created_at <;> simp [hc]) t h
  simpa [max_by_created] using this

/-- The item selected by `_get_best_next_item` is a member of the queue. -/
theorem get_best_next_item_mem (q : List ContentItem) (last : Option CType)
    (item : ContentItem) (hgb : get_best_next_item q last = some item) :
    item ∈ q := by
  cases q with
  | nil => simp [get_best_next_item] at hgb
  | cons h t =>
      cases last with
      | none =>
          have he : max_by_created h t = item := by
            simpa [get_best_next_item] using hgb
          exact he ▸ max_by_created_mem t h
      | some lt =>
          simp only [get_best_next_item] at hgb
          cases hf : (h :: t).find?
              (fun it => decide (it.content_type = preferred_other lt)) with
          | some found =>
              rw [hf] at hgb
              have he : found = item := by simpa using hgb
              exact he ▸ List.mem_of_find?_eq_some hf
          | none =>
              rw [hf] at hgb
              have he : max_by_created h t = item := by simpa using hgb
              exact he ▸ max_by_created_mem t h

/-- `list.remove` returns a sublist of the original list. -/
theorem remove_first_sublist (l : List ContentItem) (item : ContentItem) :
    (remove_first l item).Sublist l := by
  induction l with
  | nil => exact List.Sublist.refl _
  | cons h t ih =>
      rw [remove_first]
      by_cases hh : h = item
      · rw [if_pos hh]
        exact List.sublist_cons_self h t
      · rw [if_neg hh]
        exact List.Sublist.cons₂ h ih

/-- Removing a present item from a list with pairwise distinct tags removes
its tag. -/
theorem remove_first_id_not_mem (l : List ContentItem) (item : ContentItem)
    (hnd : (l.map (fun it => it.id)).Nodup) (hmem : item ∈ l) :
    item.id ∉ (remove_first l item).map (fun it => it.id) := by
  induction l with
  | nil => simp at hmem
  | cons h t ih =>
      rw [List.map_cons, List.nodup_cons] at hnd
      rw [remove_first]
      by_cases hh : h = item
      · rw [if_pos hh]
        subst hh
        exact hnd.1
      · rw [if_neg hh]
        have hmem' : item ∈ t := by
          rcases List.mem_cons.mp hmem with h1 | h1
          · exact absurd h1.symm hh
          · exact h1
        simp only [List.map_cons, List.mem_cons, not_or]
        refine ⟨?_, ih hnd.2 hmem'⟩
        intro he
        exact hnd.1 (he ▸ List.mem_map_of_mem (fun it => it.id) hmem')

/-- `evolves` composes. -/
theorem evolves_trans {s t u : QueueState} (h1 : evolves s t) (h2 : evolves t u) :
    evolves s u := by
  refine ⟨le_trans h1.1 h2.1, ?_⟩
  intro it hit
  rcases h2.2 it hit with h3 | h3
  · exact h1.2 it h3
  · exact Or.inr (le_trans h1.1 h3)

/-- Eviction does not touch the fresh-tag counter. -/
theorem remove_expired_next_id (cfg : QueueConfig) (st : QueueState) (now : ℚ) :
    (remove_expired_items cfg st now).next_id = st.next_id := rfl

/-- Eviction does not touch the last served type. -/
theorem remove_expired_last_served (cfg : QueueConfig) (st : QueueState) (now : ℚ) :
    (remove_expired_items cfg st now).last_served_type = st.last_served_type := rfl

/-- The queue after eviction is the filter of the queue. -/
theorem remove_expired_queue (cfg : QueueConfig) (st : QueueState) (now : ℚ) :
    (remove_expired_items cfg st now).queue =
      st.queue.filter (fun item => !item.is_expired cfg.max_age_minutes now) := rfl

/-- Eviction is an evolution of the queue state. -/
theorem remove_expired_evolves (cfg : QueueConfig) (st : QueueState) (now : ℚ) :
    evolves st (remove_expired_items cfg st now) := by
  refine ⟨le_refl _, ?_⟩
  intro it hit
  rw [remove_expired_queue] at hit
  exact Or.inl (List.mem_of_mem_filter hit)

/-- Eviction preserves the identity discipline. -/
theorem remove_expired_ids_ok (cfg : QueueConfig) (st : QueueState) (now : ℚ)
    (h : queue_ids_ok st) : queue_ids_ok (remove_expired_items cfg st now) := by
  constructor
  · rw [remove_expired_queue]
    exact List.Nodup.sublist (List.Sublist.map _ (List.filter_sublist _)) h.1
  · intro it hit
    rw [remove_expired_queue] at hit
    exact h.2 it (List.mem_of_mem_filter hit)

/-- One generation call is an evolution of the queue state. -/
theorem generation_step_evolves (ty : CType) (now : ℚ) (ok : Bool) (st : QueueState) :
    evolves st (generation_step ty now ok st) := by
  cases ok with
  | false => exact ⟨le_refl _, fun it hit => Or.inl hit⟩
  | true =>
      refine ⟨Nat.le_succ _, ?_⟩
      intro it hit
      simp only [generation_step, if_true] at hit
      rcases List.mem_append.mp hit with h1 | h1
      · exact Or.inl h1
      · have he : it = { id := st.next_id, content_type := ty, created_at := now } := by
          simpa using h1
        exact Or.inr (by rw [he])

/-- One generation call preserves the identity discipline: a successful call
appends an item carrying the fresh tag and bumps the counter. -/
theorem generation_step_ids_ok (ty : CType) (now : ℚ) (ok : Bool) (st : QueueState)
    (h : queue_ids_ok st) : queue_ids_ok (generation_step ty now ok st) := by
  cases ok with
  | false => exact h
  | true =>
      constructor
      · simp only [generation_step, if_true, List.map_append]
        refine List.Nodup.append h.1 (by simp) ?_
        intro a ha
        obtain ⟨it, hit, rfl⟩ := List.mem_map.mp ha
        have := h.2 it hit
        simp only [List.map_cons, List.map_nil, List.mem_cons, List.not_mem_nil]
        intro hcon
        rcases hcon with hcon | hcon
        · exact absurd hcon (Nat.ne_of_lt this)
        · exact hcon
      · intro it hit
        simp only [generation_step, if_true] at hit
        rcases List.mem_append.mp hit with h1 | h1
        · exact lt_trans (h.2 it h1) (Nat.lt_succ_self _)
        · have he : it = { id := st.next_id, content_type := ty, created_at := now } := by
            simpa using h1
          rw [he]
          exact Nat.lt_succ_self _

/-- Each generation loop of `fill_queue` is an evolution of the queue state. -/
theorem fill_loop_evolves (ty : CType) (maxq : Nat) (now : ℚ) (gen_ok : Nat → Bool) :
    ∀ (n k : Nat) (st : QueueState), evolves st ((fill_loop ty maxq now gen_ok n k st).1) := by
  intro n
  induction n with
  | zero => intro k st; exact ⟨le_refl _, fun it hit => Or.inl hit⟩
  | succ n ih =>
      intro k st
      rw [fill_loop]
      by_cases hc : maxq ≤ st.queue.length
      · rw [if_pos hc]
        exact ⟨le_refl _, fun it hit => Or.inl hit⟩
      · rw [if_neg hc]
        exact evolves_trans (generation_step_evolves ty now (gen_ok k) st) (ih (k + 1) _)

/-- Each generation loop of `fill_queue` preserves the identity discipline. -/
theorem fill_loop_ids_ok (ty : CType) (maxq : Nat) (now : ℚ) (gen_ok : Nat → Bool) :
    ∀ (n k : Nat) (st : QueueState), queue_ids_ok st →
      queue_ids_ok ((fill_loop ty maxq now gen_ok n k st).1) := by
  intro n
  induction n with
  | zero => intro k st h; exact h
  | succ n ih =>
      intro k st h
      rw [fill_loop]
      by_cases hc : maxq ≤ st.queue.length
      · rw [if_pos hc]; exact h
      · rw [if_neg hc]
        exact ih (k + 1) _ (generation_step_ids_ok ty now (gen_ok k) st h)

/-- `fill_queue` is an evolution of the queue state. -/
theorem fill_queue_evolves (cfg : QueueConfig) (st : QueueState) (now : ℚ)
    (gen_ok : Nat → Bool) : evolves st (fill_queue cfg st now gen_ok) := by
  simp only [fill_queue]
  exact evolves_trans (remove_expired_evolves cfg st now)
    (evolves_trans (fill_loop_evolves _ _ _ _ _ _ _) (fill_loop_evolves _ _ _ _ _ _ _))

/-- `fill_queue` preserves the identity discipline. -/
theorem fill_queue_ids_ok (cfg : QueueConfig) (st : QueueState) (now : ℚ)
    (gen_ok : Nat → Bool) (h : queue_ids_ok st) : queue_ids_ok (fill_queue cfg st now gen_ok) := by
  simp only [fill_queue]
  exact fill_loop_ids_ok _ _ _ _ _ _ _
    (fill_loop_ids_ok _ _ _ _ _ _ _ (remove_expired_ids_ok cfg st now h))

/-- `get_next_content` on an empty (post-eviction) queue is exactly the
emergency generation call. -/
theorem get_next_empty_eq (cfg : QueueConfig) (st : QueueState) (now : ℚ) (gen_ok : Bool)
    (hq : (remove_expired_items cfg st now).queue = []) :
    get_next_content cfg st now gen_ok =
      generate_emergency_content (remove_expired_items cfg st now) now gen_ok := by
  simp only [get_next_content, hq]

/-- `get_next_content` on a non-empty (post-eviction) queue serving `item`. -/
theorem get_next_serve_eq (cfg : QueueConfig) (st : QueueState) (now : ℚ) (gen_ok : Bool)
    (h : ContentItem) (t : List ContentItem) (item : ContentItem)
    (hq : (remove_expired_items cfg st now).queue = h :: t)
    (hgb : get_best_next_item (h :: t) (remove_expired_items cfg st now).last_served_type =
      some item) :
    get_next_content cfg st now gen_ok =
      { item := some item,
        state := { queue := remove_first (h :: t) item,
                   last_served_type := some item.content_type,
                   next_id := st.next_id },
        emergency_gen_calls := [],
        refill_triggered := true } := by
  simp only [get_next_content, hq, hgb, remove_expired_next_id]

/-- A failed emergency generation returns nothing and leaves the state. -/
theorem generate_emergency_false_eq (st : QueueState) (now : ℚ) :
    generate_emergency_content st now false =
      { item := none, state := st, emergency_gen_calls := [CType.ad],
        refill_triggered := false } := rfl

/-- A successful emergency generation returns one fresh ad item and only
bumps the fresh-tag counter. -/
theorem generate_emergency_true_eq (st : QueueState) (now : ℚ) :
    generate_emergency_content st now true =
      { item := some { id := st.next_id, content_type := CType.ad, created_at := now },
        state := { queue := st.queue, last_served_type := st.last_served_type,
                   next_id := st.next_id + 1 },
        emergency_gen_calls := [CType.ad], refill_triggered := false } := rfl

/-- On a non-empty queue the selection always yields an item ("variety
selection must not fail when only one type is present"). -/
theorem get_best_next_item_total (h : ContentItem) (t : List ContentItem)
    (last : Option CType) : ∃ item, get_best_next_item (h :: t) last = some item := by
  cases last with
  | none => exact ⟨max_by_created h t, rfl⟩
  | some lt =>
      simp only [get_best_next_item]
      cases hf : (h :: t).find? (fun it => decide (it.content_type = preferred_other lt)) with
      | some found => exact ⟨found, rfl⟩
      | none => exact ⟨max_by_created h t, rfl⟩

/-- `get_next_content` is an evolution of the queue state. -/
theorem get_next_evolves (cfg : QueueConfig) (st : QueueState) (now : ℚ) (gen_ok : Bool) :
    evolves st (get_next_content cfg st now gen_ok).state := by
  have hev := remove_expired_evolves cfg st now
  cases hq : (remove_expired_items cfg st now).queue with
  | nil =>
      rw [get_next_empty_eq cfg st now gen_ok hq]
      cases gen_ok with
      | false =>
          rw [generate_emergency_false_eq]
          exact hev
      | true =>
          rw [generate_emergency_true_eq]
          refine ⟨le_trans hev.1 (Nat.le_succ _), ?_⟩
          intro it hit
          exact hev.2 it hit
  | cons hd t =>
      obtain ⟨item, hgb⟩ :=
        get_best_next_item_total hd t (remove_expired_items cfg st now).last_served_type
      rw [get_next_serve_eq cfg st now gen_ok hd t item hq hgb]
      refine ⟨le_refl _, ?_⟩
      intro it hit
      have h1 : it ∈ hd :: t := (remove_first_sublist (hd :: t) item).subset hit
      have h2 : it ∈ (remove_expired_items cfg st now).queue := by rw [hq]; exact h1
      exact hev.2 it h2

/-- `get_next_content` preserves the identity discipline. -/
theorem get_next_ids_ok (cfg : QueueConfig) (st : QueueState) (now : ℚ) (gen_ok : Bool)
    (h : queue_ids_ok st) : queue_ids_ok (get_next_content cfg st now gen_ok).state := by
  have h1 := remove_expired_ids_ok cfg st now h
  cases hq : (remove_expired_items cfg st now).queue with
  | nil =>
      rw [get_next_empty_eq cfg st now gen_ok hq]
      cases gen_ok with
      | false =>
          rw [generate_emergency_false_eq]
          exact h1
      | true =>
          rw [generate_emergency_true_eq]
          refine ⟨h1.1, ?_⟩
          intro it hit
          exact lt_trans (h1.2 it hit) (Nat.lt_succ_self _)
  | cons hd t =>
      obtain ⟨item, hgb⟩ :=
        get_best_next_item_total hd t (remove_expired_items cfg st now).last_served_type
      rw [get_next_serve_eq cfg st now gen_ok hd t item hq hgb]
      have hnd : ((hd :: t).map (fun it => it.id)).Nodup := by rw [← hq]; exact h1.1
      constructor
      · exact List.Nodup.sublist (List.Sublist.map _ (remove_first_sublist (hd :: t) item)) hnd
      · intro it hit
        have h2 : it ∈ hd :: t := (remove_first_sublist (hd :: t) item).subset hit
        have h3 : it ∈ (remove_expired_items cfg st now).queue := by rw [hq]; exact h2
        exact h1.2 it h3

/-- An item returned by `get_next_content` was queued already or is fresh. -/
theorem get_next_item_sources (cfg : QueueConfig) (st : QueueState) (now : ℚ) (gen_ok : Bool)
    (item : ContentItem) (hit : (get_next_content cfg st now gen_ok).item = some item) :
    item ∈ st.queue ∨ st.next_id ≤ item.id := by
  cases hq : (remove_expired_items cfg st now).queue with
  | nil =>
      rw [get_next_empty_eq cfg st now gen_ok hq] at hit
      cases gen_ok with
      | false =>
          rw [generate_emergency_false_eq] at hit
          simp at hit
      | true =>
          rw [generate_emergency_true_eq] at hit
          have he : (⟨(remove_expired_items cfg st now).next_id, CType.ad, now⟩ : ContentItem)
              = item := by
            simpa using hit
          refine Or.inr ?_
          rw [← he]
          exact le_refl _
  | cons hd t =>
      obtain ⟨item2, hgb⟩ :=
        get_best_next_item_total hd t (remove_expired_items cfg st now).last_served_type
      rw [get_next_serve_eq cfg st now gen_ok hd t item2 hq hgb] at hit
      have he : item2 = item := by simpa using hit
      subst he
      have h2 : item2 ∈ (remove_expired_items cfg st now).queue := by
        rw [hq]
        exact get_best_next_item_mem (hd :: t) _ item2 hgb
      rw [remove_expired_queue] at h2
      exact Or.inl (List.mem_of_mem_filter h2)

/-- The item `get_next_content` returns is gone from the remaining queue
(its tag is no longer queued) and its tag lies below the fresh counter. -/
theorem get_next_served_spec (cfg : QueueConfig) (st : QueueState) (now : ℚ) (gen_ok : Bool)
    (item : ContentItem) (h : queue_ids_ok st)
    (hit : (get_next_content cfg st now gen_ok).item = some item) :
    item.id ∉ ((get_next_content cfg st now gen_ok).state.queue.map (fun it => it.id)) ∧
    item.id < (get_next_content cfg st now gen_ok).state.next_id := by
  have h1 := remove_expired_ids_ok cfg st now h
  cases hq : (remove_expired_items cfg st now).queue with
  | nil =>
      rw [get_next_empty_eq cfg st now gen_ok hq] at hit ⊢
      cases gen_ok with
      | false =>
          rw [generate_emergency_false_eq] at hit
          simp at hit
      | true =>
          rw [generate_emergency_true_eq] at hit ⊢
          have he : (⟨(remove_expired_items cfg st now).next_id, CType.ad, now⟩ : ContentItem)
              = item := by
            simpa using hit
          constructor
          · rw [← he]
            simp [hq]
          · rw [← he]
            exact Nat.lt_succ_self _
  | cons hd t =>
      obtain ⟨item2, hgb⟩ :=
        get_best_next_item_total hd t (remove_expired_items cfg st now).last_served_type
      rw [get_next_serve_eq cfg st now gen_ok hd t item2 hq hgb] at hit ⊢
      have he : item2 = item := by simpa using hit
      subst he
      have hmem : item2 ∈ (remove_expired_items cfg st now).queue := by
        rw [hq]
        exact get_best_next_item_mem (hd :: t) _ item2 hgb
      have hnd : ((hd :: t).map (fun it => it.id)).Nodup := by rw [← hq]; exact h1.1
      constructor
      · exact remove_first_id_not_mem (hd :: t) item2 hnd (by rw [← hq]; exact hmem)
      · exact h1.2 item2 hmem

/-- Every item a run of queue operations serves was already queued at the
start of the run or carries a tag minted during the run. -/
theorem run_queue_served_sources (cfg : QueueConfig) (ops : List QueueOp) :
    ∀ (st : QueueState) (item : ContentItem), item ∈ (run_queue cfg st ops).2 →
      item ∈ st.queue ∨ st.next_id ≤ item.id := by
  induction ops with
  | nil =>
      intro st item hmem
      simp [run_queue] at hmem
  | cons op ops ih =>
      intro st item hmem
      cases op with
      | fill now gok =>
          rw [run_queue] at hmem
          rcases ih _ item hmem with h1 | h1
          · rcases (fill_queue_evolves cfg st now gok).2 item h1 with h2 | h2
            · exact Or.inl h2
            · exact Or.inr h2
          · exact Or.inr (le_trans (fill_queue_evolves cfg st now gok).1 h1)
      | getNext now gok =>
          rw [run_queue] at hmem
          simp only [List.mem_append] at hmem
          rcases hmem with h1 | h1
          · rw [Option.mem_toList, Option.mem_def] at h1
            exact get_next_item_sources cfg st now gok item h1
          · rcases ih _ item h1 with h2 | h2
            · rcases (get_next_evolves cfg st now gok).2 item h2 with h3 | h3
              · exact Or.inl h3
              · exact Or.inr h3
            · exact Or.inr (le_trans (get_next_evolves cfg st now gok).1 h2)

/-- From any state with the identity discipline, the items served along a
run of queue operations carry pairwise distinct identity tags. -/
theorem run_queue_served_nodup (cfg : QueueConfig) (ops : List QueueOp) :
    ∀ st : QueueState, queue_ids_ok st →
      ((run_queue cfg st ops).2.map (fun it => it.id)).Nodup := by
  induction ops with
  | nil =>
      intro st h
      simp [run_queue]
  | cons op ops ih =>
      intro st h
      cases op with
      | fill now gok =>
          rw [run_queue]
          exact ih _ (fill_queue_ids_ok cfg st now gok h)
      | getNext now gok =>
          rw [run_queue]
          cases hit : (get_next_content cfg st now gok).item with
          | none =>
              simp only [hit, Option.toList_none, List.nil_append]
              exact ih _ (get_next_ids_ok cfg st now gok h)
          | some item =>
              simp only [hit, Option.toList_some, List.singleton_append, List.map_cons,
                List.nodup_cons]
              refine ⟨?_, ih _ (get_next_ids_ok cfg st now gok h)⟩
              intro hmem
              obtain ⟨item2, hmem2, hid⟩ := List.mem_map.mp hmem
              have hspec := get_next_served_spec cfg st now gok item h hit
              rcases run_queue_served_sources cfg ops _ item2 hmem2 with h1 | h1
              · exact hspec.1 (hid ▸ List.mem_map_of_mem (fun it => it.id) h1)
              · have h2 := hspec.2
                rw [hid] at h1
                omega

/-- Claim C4: over any interleaving of queue operations starting from a
fresh `ContentQueue`, no two `get_next_content` calls ever return the same
`ContentItem` instance: the identity tags of all served items are pairwise
distinct (an item served from the queue is removed at that moment and never
re-queued; emergency items are freshly constructed). -/
theorem C4_served_items_distinct (cfg : QueueConfig) (ops : List QueueOp) :
    ((run_queue cfg initial_queue_state ops).2.map (fun it => it.id)).Nodup :=
  run_queue_served_nodup cfg ops initial_queue_state
    ⟨by simp [initial_queue_state], by simp [initial_queue_state]⟩

/-- One generation call grows the queue by at most one item. -/
theorem generation_step_length (ty : CType) (now : ℚ) (ok : Bool) (st : QueueState) :
    (generation_step ty now ok st).queue.length ≤ st.queue.length + 1 := by
  cases ok <;> simp [generation_step]

/-- A generation loop started within capacity stays within capacity. -/
theorem fill_loop_length (ty : CType) (maxq : Nat) (now : ℚ) (gen_ok : Nat → Bool) :
    ∀ (n k : Nat) (st : QueueState), st.queue.length ≤ maxq →
      ((fill_loop ty maxq now gen_ok n k st).1).queue.length ≤ maxq := by
  intro n
  induction n with
  | zero => intro k st h; exact h
  | succ n ih =>
      intro k st h
      rw [fill_loop]
      by_cases hc : maxq ≤ st.queue.length
      · rw [if_pos hc]
        exact h
      · rw [if_neg hc]
        apply ih
        calc (generation_step ty now (gen_ok k) st).queue.length
            ≤ st.queue.length + 1 := generation_step_length ty now (gen_ok k) st
          _ ≤ maxq := Nat.succ_le_of_lt (Nat.lt_of_not_le hc)

/-- Claim C5: from any starting queue of size at most `maxCapacity`,
`fill_queue` leaves the queue size at most `maxCapacity`: each generation
step is preceded by a capacity check and adds at most one item. -/
theorem C5_fill_queue_capacity (cfg : QueueConfig) (st : QueueState) (now : ℚ)
    (gen_ok : Nat → Bool) (h : st.queue.length ≤ cfg.max_queue_size) :
    (fill_queue cfg st now gen_ok).queue.length ≤ cfg.max_queue_size := by
  simp only [fill_queue]
  apply fill_loop_length
  apply fill_loop_length
  rw [remove_expired_queue]
  exact le_trans (List.length_filter_le _ _) h

/-- Witness for C5 at the default configuration (capacity 4), an empty
starting queue and an always-succeeding generation back-end. -/
theorem C5_fill_queue_capacity_witness :
    (fill_queue ⟨4, 1, 1, 30⟩ initial_queue_state 0 (fun _ => true)).queue.length ≤ 4 :=
  C5_fill_queue_capacity ⟨4, 1, 1, 30⟩ initial_queue_state 0 (fun _ => true)
    (by simp [initial_queue_state])

/-- Claim C7: an item served via the normal queue path (the queue is
non-empty after eviction) is never expired at serving time: expired items
are evicted before selection. -/
theorem C7_no_expired_item_served (cfg : QueueConfig) (st : QueueState) (now : ℚ)
    (gen_ok : Bool) (item : ContentItem)
    (hnormal : (remove_expired_items cfg st now).queue ≠ [])
    (hitem : (get_next_content cfg st now gen_ok).item = some item) :
    item.is_expired cfg.max_age_minutes now = false := by
  cases hq : (remove_expired_items cfg st now).queue with
  | nil => exact absurd hq hnormal
  | cons hd t =>
      obtain ⟨item2, hgb⟩ :=
        get_best_next_item_total hd t (remove_expired_items cfg st now).last_served_type
      rw [get_next_serve_eq cfg st now gen_ok hd t item2 hq hgb] at hitem
      have he : item2 = item := by simpa using hitem
      subst he
      have hmem : item2 ∈ (remove_expired_items cfg st now).queue := by
        rw [hq]
        exact get_best_next_item_mem (hd :: t) _ item2 hgb
      rw [remove_expired_queue] at hmem
      have hkeep := (List.mem_filter.mp hmem).2
      simpa using hkeep

/-- Witness for C7: serving a one-minute-old item with a 30-minute age limit
returns it unexpired. -/
theorem C7_no_expired_item_served_witness :
    ContentItem.is_expired ⟨0, CType.ad, 0⟩ 30 60 = false :=
  C7_no_expired_item_served ⟨4, 1, 1, 30⟩ ⟨[⟨0, CType.ad, 0⟩], none, 1⟩ 60 false
    ⟨0, CType.ad, 0⟩
    (by norm_num [remove_expired_items, ContentItem.is_expired])
    (by norm_num [get_next_content, remove_expired_items, ContentItem.is_expired,
      get_best_next_item, max_by_created])

/-- Claim C9: a `get_next_content` call finding the queue empty after
eviction makes exactly one synchronous emergency generation call, always for
an ad whatever the last served type, and returns that single fresh ad item,
or nothing when generation fails. -/
theorem C9_emergency_single_ad_call (cfg : QueueConfig) (st : QueueState) (now : ℚ)
    (gen_ok : Bool) (hempty : (remove_expired_items cfg st now).queue = []) :
    (get_next_content cfg st now gen_ok).emergency_gen_calls = [CType.ad] ∧
    (get_next_content cfg st now gen_ok).item =
      (if gen_ok then some ⟨st.next_id, CType.ad, now⟩ else none) := by
  rw [get_next_empty_eq cfg st now gen_ok hempty]
  cases gen_ok with
  | false =>
      rw [generate_emergency_false_eq]
      exact ⟨rfl, rfl⟩
  | true =>
      rw [generate_emergency_true_eq]
      exact ⟨rfl, rfl⟩

/-- Witness for C9: the queue held one stale ad (33 minutes old), the last
served type was an ad, and the emergency call still generates an ad. -/
theorem C9_emergency_single_ad_call_witness :
    (get_next_content ⟨4, 1, 1, 30⟩ ⟨[⟨0, CType.ad, 0⟩], some CType.ad, 5⟩ 2000
      true).emergency_gen_calls = [CType.ad] ∧
    (get_next_content ⟨4, 1, 1, 30⟩ ⟨[⟨0, CType.ad, 0⟩], some CType.ad, 5⟩ 2000
      true).item = (if true then some ⟨5, CType.ad, 2000⟩ else none) :=
  C9_emergency_single_ad_call ⟨4, 1, 1, 30⟩ ⟨[⟨0, CType.ad, 0⟩], some CType.ad, 5⟩ 2000 true
    (by norm_num [remove_expired_items, ContentItem.is_expired])

/-- Claim C10: on the emergency path (queue empty after eviction) the cache
state is otherwise unchanged: the queue stays the post-eviction queue (no
item is removed by the call and the emergency item never enters it),
`last_served_type` keeps its previous value, and no background refill is
triggered. -/
theorem C10_emergency_frame (cfg : QueueConfig) (st : QueueState) (now : ℚ) (gen_ok : Bool)
    (hempty : (remove_expired_items cfg st now).queue = []) :
    (get_next_content cfg st now gen_ok).state.queue =
      (remove_expired_items cfg st now).queue ∧
    (get_next_content cfg st now gen_ok).state.last_served_type = st.last_served_type ∧
    (get_next_content cfg st now gen_ok).refill_triggered = false := by
  rw [get_next_empty_eq cfg st now gen_ok hempty]
  cases gen_ok with
  | false =>
      rw [generate_emergency_false_eq]
      exact ⟨rfl, rfl, rfl⟩
  | true =>
      rw [generate_emergency_true_eq]
      exact ⟨rfl, rfl, rfl⟩

/-- Witness for C10 on a concrete emptied queue state. -/
theorem C10_emergency_frame_witness :
    (get_next_content ⟨4, 1, 1, 30⟩ ⟨[⟨3, CType.conversation, 0⟩], some CType.conversation, 7⟩
      2000 false).state.queue =
      (remove_expired_items ⟨4, 1, 1, 30⟩
        ⟨[⟨3, CType.conversation, 0⟩], some CType.conversation, 7⟩ 2000).queue ∧
    (get_next_content ⟨4, 1, 1, 30⟩ ⟨[⟨3, CType.conversation, 0⟩], some CType.conversation, 7⟩
      2000 false).state.last_served_type = some CType.conversation ∧
    (get_next_content ⟨4, 1, 1, 30⟩ ⟨[⟨3, CType.conversation, 0⟩], some CType.conversation, 7⟩
      2000 false).refill_triggered = false :=
  C10_emergency_frame ⟨4, 1, 1, 30⟩
    ⟨[⟨3, CType.conversation, 0⟩], some CType.conversation, 7⟩ 2000 false
    (by norm_num [remove_expired_items, ContentItem.is_expired])

/-- Counting emergency resumes distributes over appended traces. -/
theorem emergency_resume_count_append (l1 l2 : List BAction) :
    emergency_resume_count (l1 ++ l2) =
      emergency_resume_count l1 + emergency_resume_count l2 := by
  simp [emergency_resume_count, List.filter_append]

/-- A trace prefix has at most as many emergency resumes as the trace. -/
theorem emergency_resume_count_take_le (k : Nat) (l : List BAction) :
    emergency_resume_count (l.take k) ≤ emergency_resume_count l :=
  List.Sublist.length_le (List.Sublist.filter _ (List.take_sublist k l))

/-- The exception-free body of a break contains exactly one resume call, on
every configuration and environment. -/
theorem break_body_resume_count (cfg : BreakCfg) (env : BreakEnv) :
    resume_count (break_body cfg env) = 1 := by
  obtain ⟨e, pa⟩ := cfg
  obtain ⟨u, f, p, w⟩ := env
  cases pa <;> cases u <;> cases f <;> cases p <;>
    simp [break_body, resume_count, is_resume_action]

/-- The exception-free body of a break makes no emergency resume call. -/
theorem break_body_emergency_count (cfg : BreakCfg) (env : BreakEnv) :
    emergency_resume_count (break_body cfg env) = 0 := by
  obtain ⟨e, pa⟩ := cfg
  obtain ⟨u, f, p, w⟩ := env
  cases pa <;> cases u <;> cases f <;> cases p <;>
    simp [break_body, emergency_resume_count, is_emergency_resume_action]

/-- Claim C6: every enabled break issues exactly one resume after its pause
sequence and no emergency resume when no exception occurs; the play-failure
path in particular degrades to the estimated wait `max(8, words/150 × 60)`
seconds and still ends in the single resume; and an unhandled exception at
any point of the protocol triggers exactly one best-effort emergency
resume. -/
theorem C6_exactly_one_resume :
    (∀ (cfg : BreakCfg) (env : BreakEnv), cfg.enabled = true →
      resume_count (execute_immediate_content_break cfg env none) = 1 ∧
      emergency_resume_count (execute_immediate_content_break cfg env none) = 0) ∧
    (∀ (cfg : BreakCfg) (env : BreakEnv), cfg.enabled = true → cfg.play_audio = true →
      env.url_is_audio = true → env.file_exists = true → env.play_success = false →
      execute_immediate_content_break cfg env none =
        [BAction.volume_query, BAction.pause_call, BAction.sleep_call (1 / 10),
         BAction.pause_call, BAction.play_call,
         BAction.wait_call (max 8 ((env.word_count : ℚ) / 150 * 60)),
         BAction.resume_call]) ∧
    (∀ (cfg : BreakCfg) (env : BreakEnv) (k : Nat), cfg.enabled = true →
      emergency_resume_count (execute_immediate_content_break cfg env (some k)) = 1) := by
  refine ⟨?_, ?_, ?_⟩
  · intro cfg env henabled
    have he : execute_immediate_content_break cfg env none = break_body cfg env := by
      simp [execute_immediate_content_break, henabled]
    rw [he]
    exact ⟨break_body_resume_count cfg env, break_body_emergency_count cfg env⟩
  · intro cfg env henabled hpa hu hf hp
    simp [execute_immediate_content_break, henabled, break_body, hpa, hu, hf, hp,
      estimated_wait]
  · intro cfg env k henabled
    have he : execute_immediate_content_break cfg env (some k) =
        (break_body cfg env).take k ++ [BAction.emergency_resume_call] := by
      simp [execute_immediate_content_break, henabled]
    rw [he, emergency_resume_count_append]
    have h0 : emergency_resume_count ((break_body cfg env).take k) = 0 := by
      have hle := emergency_resume_count_take_le k (break_body cfg env)
      rw [break_body_emergency_count cfg env] at hle
      exact Nat.le_zero.mp hle
    rw [h0]
    simp [emergency_resume_count, is_emergency_resume_action]

end StudioBot
